import Mathlib

/-!
# sdns middleware: block list and Proxmox resolver

A shallow embedding of `middleware/blocklist/blocklist.go`,
`middleware/pveresolver/pveresolver.go` and `middleware/pveresolver/cache.go`.

Conventions of the embedding:

* Go maps with string keys are association lists without repeated keys.
* The mutexes are left out: every operation is modelled as one atomic step.
* Logging is left out.
* The calls a handler makes on its chain (`Next`, `Cancel`, `Writer.WriteMsg`)
  are returned as a list of events, in call order.
* A run-time panic (index out of range) is the result `none`.
-/

namespace Sdns

/-! ## Domain names -/

/-- Modelled from the spec: `dns.IsFqdn` belongs to the DNS library, which is
outside the repository. A name is fully qualified when it ends with the label
separator (a dot). -/
def IsFqdn (s : String) : Bool :=
  s.data.getLast? == some '.'

/-- Modelled from the spec: `dns.Fqdn` belongs to the DNS library, which is
outside the repository. The name is returned fully qualified: a trailing dot
is appended when it is missing. -/
def Fqdn (s : String) : String :=
  if IsFqdn s then s else ⟨s.data ++ ['.']⟩

/-- Modelled from the spec: `dns.CanonicalName` belongs to the DNS library,
which is outside the repository. The canonical form is lower-case and fully
qualified. -/
def CanonicalName (s : String) : String :=
  ⟨(Fqdn s).data.map Char.toLower⟩

/-! ## Go maps keyed by strings -/

/-- Go `map[string]V`: a list of key/value pairs in which no key occurs twice. -/
structure GoMap (V : Type) where
  entries : List (String × V)
  nodup : (entries.map Prod.fst).Nodup

namespace GoMap

variable {V : Type}

/-- The map made by `make(map[string]V)`. -/
def empty : GoMap V := ⟨[], List.nodup_nil⟩

/-- The keys of the map. -/
def keys (m : GoMap V) : List String := m.entries.map Prod.fst

/-- The two-result index expression `v, ok := m[k]`; `none` stands for `ok == false`. -/
def lookup (m : GoMap V) (k : String) : Option V :=
  (m.entries.find? (fun e => e.1 == k)).map Prod.snd

/-- The one-result index expression `m[k]`: the zero value when the key is absent. -/
def index (m : GoMap V) (zero : V) (k : String) : V :=
  (m.lookup k).getD zero

/-- The built-in `delete(m, k)`. -/
def delete (m : GoMap V) (k : String) : GoMap V :=
  ⟨m.entries.filter (fun e => !(e.1 == k)),
    List.Nodup.sublist ((List.filter_sublist m.entries).map Prod.fst) m.nodup⟩

/-- The assignment `m[k] = v`. -/
def store (m : GoMap V) (k : String) (v : V) : GoMap V :=
  ⟨(k, v) :: (m.delete k).entries, by
    rw [List.map_cons, List.nodup_cons]
    refine ⟨?_, (m.delete k).nodup⟩
    simp [delete, List.mem_map, List.mem_filter]⟩

/-- The built-in `len(m)`. -/
def len (m : GoMap V) : Nat := m.entries.length

end GoMap

/-! ## Addresses -/

/-- Go `net.IP`: a byte slice; the nil slice is the empty list. -/
abbrev IP := List Nat

/-- Modelled from the spec: `net.IPv4len` and `net.IPv6len` of the Go library. -/
def IPv4len : Nat := 4

/-- Modelled from the spec: `net.IPv6len` of the Go library. -/
def IPv6len : Nat := 16

/-- Modelled from the spec: the first twelve bytes of an IPv4 address held in
sixteen bytes (Go library `net`). -/
def v4InV6Prefix : List Nat := [0, 0, 0, 0, 0, 0, 0, 0, 0, 0, 0xff, 0xff]

/-- Modelled from the spec: `net.IP.To4` of the Go library, outside the
repository. The four-byte form of an IPv4 address, nil when the address is not
an IPv4 address. -/
def IP.To4 (ip : IP) : IP :=
  if ip.length = IPv4len then ip
  else if ip.length = IPv6len ∧ (ip.take 10).all (fun x => x == 0) ∧
      ip.getD 10 0 = 0xff ∧ ip.getD 11 0 = 0xff then ip.drop 12
  else []

/-- Modelled from the spec: `net.IP.Equal` of the Go library, outside the
repository. Two addresses are equal when they are the same bytes; an IPv4
address and the same address held in sixteen bytes are equal. -/
def IP.Equal (ip x : IP) : Bool :=
  if ip.length = x.length then ip == x
  else if ip.length = IPv4len ∧ x.length = IPv6len then
    x.take 12 == v4InV6Prefix && ip == x.drop 12
  else if ip.length = IPv6len ∧ x.length = IPv4len then
    ip.take 12 == v4InV6Prefix && ip.drop 12 == x
  else false

/-- Modelled from the spec: `net.IPNet` of the Go library, the Subnet Filter:
a network number and a mask. -/
structure IPNet where
  IP : IP
  Mask : List Nat
deriving DecidableEq

/-- Modelled from the spec: `net.networkNumberAndMask` of the Go library. -/
def networkNumberAndMask (n : IPNet) : IP × List Nat :=
  let ip4 := IP.To4 n.IP
  let ip := if ip4 = [] then n.IP else ip4
  if ip4 = [] ∧ ip.length ≠ IPv6len then ([], [])
  else if n.Mask.length = IPv4len then
    if ip.length ≠ IPv4len then ([], []) else (ip, n.Mask)
  else if n.Mask.length = IPv6len then
    if ip.length = IPv4len then (ip, n.Mask.drop 12) else (ip, n.Mask)
  else ([], [])

/-- Modelled from the spec: `net.IPNet.Contains` of the Go library, outside the
repository: whether the address falls inside the subnet. -/
def IPNet.Contains (n : IPNet) (ip : Sdns.IP) : Bool :=
  let nn := (networkNumberAndMask n).1
  let m := (networkNumberAndMask n).2
  let ip := if IP.To4 ip = [] then ip else IP.To4 ip
  if ip.length ≠ nn.length then false
  else (List.range ip.length).all
    (fun i => Nat.land (nn.getD i 0) (m.getD i 0) == Nat.land (ip.getD i 0) (m.getD i 0))

/-! ## DNS messages -/

/-- Modelled from the spec: record type codes of the DNS library (`dns.TypeA`). -/
def TypeA : Nat := 1

/-- Modelled from the spec: `dns.TypeSOA`. -/
def TypeSOA : Nat := 6

/-- Modelled from the spec: `dns.TypeMX`. -/
def TypeMX : Nat := 15

/-- Modelled from the spec: `dns.TypeTXT`. -/
def TypeTXT : Nat := 16

/-- Modelled from the spec: `dns.TypeAAAA`. -/
def TypeAAAA : Nat := 28

/-- Modelled from the spec: `dns.ClassINET`. -/
def ClassINET : Nat := 1

/-- Modelled from the spec: `dns.OpcodeQuery`. -/
def OpcodeQuery : Int := 0

/-- Modelled from the spec: `dns.RcodeSuccess`. -/
def RcodeSuccess : Int := 0

/-- Modelled from the spec: `dns.Question` of the DNS library. -/
structure Question where
  Name : String
  Qtype : Nat
  Qclass : Nat
deriving DecidableEq

/-- Modelled from the spec: `dns.RR_Header` of the DNS library. -/
structure RR_Header where
  Name : String
  Rrtype : Nat
  Class : Nat
  Ttl : Nat
  Rdlength : Nat := 0
deriving DecidableEq

/-- Modelled from the spec: the resource records of the DNS library that the
handlers build (`dns.A`, `dns.AAAA`, `dns.SOA`). -/
inductive RR where
  | A (Hdr : RR_Header) (A : IP)
  | AAAA (Hdr : RR_Header) (AAAA : IP)
  | SOA (Hdr : RR_Header) (Ns Mbox : String) (Serial Refresh Retry Expire Minttl : Nat)
deriving DecidableEq

/-- Modelled from the spec: `dns.Msg` of the DNS library (header fields and the
four sections). The default values are the zero value made by `new(dns.Msg)`. -/
structure Msg where
  Id : Nat := 0
  Response : Bool := false
  Opcode : Int := 0
  Authoritative : Bool := false
  Truncated : Bool := false
  RecursionDesired : Bool := false
  RecursionAvailable : Bool := false
  Zero : Bool := false
  AuthenticatedData : Bool := false
  CheckingDisabled : Bool := false
  Rcode : Int := 0
  Compress : Bool := false
  Question : List Question := []
  Answer : List RR := []
  Ns : List RR := []
  Extra : List RR := []
deriving DecidableEq

/-- Modelled from the spec: `dns.Msg.SetReply` of the DNS library, outside the
repository. It turns the message into a reply to `request`: same id and opcode,
response bit set, success code, the first question copied; the record sections
are not touched. -/
def Msg.SetReply (msg request : Msg) : Msg :=
  let msg := { msg with Id := request.Id, Response := true, Opcode := request.Opcode }
  let msg :=
    if msg.Opcode = OpcodeQuery then
      { msg with RecursionDesired := request.RecursionDesired
                 CheckingDisabled := request.CheckingDisabled }
    else msg
  let msg := { msg with Rcode := RcodeSuccess }
  match request.Question with
  | [] => msg
  | q :: _ => { msg with Question := [q] }

/-- What a handler did with its `middleware.Chain`: a call of `Next`, a call of
`Cancel`, or a call of `Writer.WriteMsg` with the message written. -/
inductive ChainEvent where
  | next
  | cancel
  | writeMsg (msg : Msg)
deriving DecidableEq

/-! ## Block list -/

/-- First line of the persisted file, without its line break. -/
def fileHeader : String := "# The file generated by auto. DO NOT EDIT"

/-- The state `BlockList` works on: the struct fields `nullroute`, `null6route`,
`m`, `w`, and the file `<cfg.BlockListDir>/local` it persists to.
`file` is the content of that file (`none`: the file does not exist),
`openFails` tells whether `os.OpenFile` on it returns an error, and
`writes` counts the `WriteString` calls made on it so far. -/
structure BlockList where
  nullroute : IP
  null6route : IP
  m : GoMap Bool
  w : GoMap Bool
  file : Option String
  openFails : Bool
  writes : Nat

namespace BlockList

/-- `BlockList.save`. The file is truncated and rewritten: the header line, then
one line per key of `m`. Go visits the keys of a map in an order it does not
specify; `ord` gives the order in which the keys are visited. -/
def save (ord : List String → List String) (b : BlockList) : BlockList :=
  if b.openFails then b
  else
    { b with
      file := some (fileHeader ++ "\n" ++ String.join ((ord b.m.keys).map (fun d => d ++ "\n")))
      writes := b.writes + 1 + (ord b.m.keys).length }

/-- `BlockList.Exists`. -/
def Exists (b : BlockList) (key : String) : Bool :=
  (b.m.lookup (CanonicalName key)).isSome

/-- `BlockList.Get`: the error result is `Except.error`. -/
def Get (b : BlockList) (key : String) : Except String Bool :=
  match b.m.lookup (CanonicalName key) with
  | none => .error "block not found"
  | some val => .ok val

/-- `BlockList.Set`: the new state and the returned boolean. -/
def Set (ord : List String → List String) (b : BlockList) (key : String) : BlockList × Bool :=
  let key := CanonicalName key
  if b.w.index false key then (b, false)
  else (save ord { b with m := b.m.store key true }, true)

/-- `BlockList.Remove`: the new state and the returned boolean. -/
def Remove (ord : List String → List String) (b : BlockList) (key : String) : BlockList × Bool :=
  if !b.Exists key then (b, false)
  else
    let key := CanonicalName key
    (save ord { b with m := b.m.delete key }, true)

/-- `BlockList.Length`. -/
def Length (b : BlockList) : Nat := b.m.len

/-- `BlockList.ServeDNS`: the calls made on the chain, in order; `none` when
`req.Question[0]` is out of range. -/
def ServeDNS (b : BlockList) (req : Msg) : Option (List ChainEvent) :=
  match req.Question with
  | [] => none
  | q :: _ =>
    if !b.Exists q.Name then some [ChainEvent.next]
    else
      let msg : Msg := Msg.SetReply {} req
      let msg := { msg with Authoritative := true, RecursionAvailable := true }
      let msg :=
        if q.Qtype = TypeA then
          let rrHeader : RR_Header :=
            { Name := q.Name, Rrtype := TypeA, Class := ClassINET, Ttl := 3600 }
          { msg with Answer := msg.Answer ++ [RR.A rrHeader b.nullroute] }
        else if q.Qtype = TypeAAAA then
          let rrHeader : RR_Header :=
            { Name := q.Name, Rrtype := TypeAAAA, Class := ClassINET, Ttl := 3600 }
          { msg with Answer := msg.Answer ++ [RR.AAAA rrHeader b.null6route] }
        else
          let rrHeader : RR_Header :=
            { Name := q.Name, Rrtype := TypeSOA, Class := ClassINET, Ttl := 86400 }
          let soa := RR.SOA rrHeader q.Name "." 0 28800 7200 604800 86400
          { msg with Extra := msg.Answer ++ [soa] }
      some [ChainEvent.writeMsg msg, ChainEvent.cancel]

end BlockList

/-- Block list of `New`: both tables empty, nothing persisted yet. -/
def emptyBlockList (nullroute null6route : IP) : BlockList :=
  { nullroute := nullroute, null6route := null6route, m := GoMap.empty, w := GoMap.empty,
    file := none, openFails := false, writes := 0 }

/-! ## Proxmox resolver -/

/-- Modelled from the spec: one address reported by the guest agent, an
{address, address-family} pair. The type is declared outside the listed
sources; the fields are the ones `goUpdateQemu` reads. -/
structure agentAddress where
  IPAddressType : String
  IPAddress : String
deriving DecidableEq

/-- Modelled from the spec: one network interface reported by the guest agent:
a name and a list of addresses. -/
structure agentInterface where
  Name : String
  IPAddresses : List agentAddress
deriving DecidableEq

/-- Modelled from the spec: the reply of the agent endpoint
`network-get-interfaces`, type `agentInterfaces`, declared outside the listed
sources. -/
structure agentInterfaces where
  Result : List agentInterface
deriving DecidableEq

/-- Modelled from the spec: `proxmox.ClusterResource` of the inventory client,
with the fields `goUpdateQemu` reads. -/
structure ClusterResource where
  Name : String
  Node : String
  VMID : Nat
deriving DecidableEq

/-- The struct `cache`: the table `c`, the subnet `net` (the value the pointer
refers to, taken to be non-nil) and the crash flag. The inventory client `pve`
is left out; its replies are arguments. -/
structure cache where
  c : GoMap IP
  net : IPNet
  crashed : Bool

namespace cache

/-- `cache.get`: the two results, and the cache after the call. -/
def get (c : cache) (fqnd : String) : (IP × Bool) × cache :=
  if c.crashed then (([], false), c)
  else ((c.c.index [] (Fqdn fqnd), (c.c.lookup (Fqdn fqnd)).isSome), c)

/-- Body of the inner loop of `goUpdateQemu` for one reported address.
`parseIP` is `net.ParseIP` of the Go library. -/
def updateAddr (parseIP : String → IP) (fqnd : String) (c : cache) (addr : agentAddress) :
    cache :=
  if addr.IPAddressType != "ipv4" then c
  else
    let ip := parseIP addr.IPAddress
    if c.net.Contains ip && !(IP.Equal (c.c.index [] fqnd) ip) then
      { c with c := c.c.store fqnd ip }
    else c

/-- `cache.goUpdateQemu`, the body of the goroutine it starts. `reply` is the
result of the request `c.pve.Get` to the agent endpoint of the machine. -/
def goUpdateQemu (parseIP : String → IP) (c : cache) (r : ClusterResource)
    (reply : Except String agentInterfaces) : cache :=
  let fqnd := Fqdn r.Name
  match reply with
  | .error _ => c
  | .ok ifaces =>
    ifaces.Result.foldl
      (fun c iface => iface.IPAddresses.foldl (updateAddr parseIP fqnd) c) c

end cache

/-- The struct `PVEResolver`. -/
structure PVEResolver where
  c : cache

/-- `PVEResolver.ServeDNS`: the calls made on the chain, in order; `none` when
`req.Question[0]` is out of range. -/
def PVEResolver.ServeDNS (m : PVEResolver) (req : Msg) : Option (List ChainEvent) :=
  match req.Question with
  | [] => none
  | q :: _ =>
    if q.Qtype ≠ TypeA then some [ChainEvent.next]
    else
      let r := (m.c.get q.Name).1
      if !r.2 then some [ChainEvent.next]
      else
        let res : Msg := Msg.SetReply {} req
        let res := { res with Authoritative := false }
        let res := { res with
          Answer := [RR.A { Name := q.Name, Rrtype := TypeA, Class := ClassINET, Ttl := 60 } r.1] }
        some [ChainEvent.writeMsg res, ChainEvent.cancel]

/-! ## Sample data -/

/-- The IPv4 address `a.b.c.d` as `net.ParseIP` returns it: sixteen bytes. -/
def ipv4 (a b c d : Nat) : IP := v4InV6Prefix ++ [a, b, c, d]

/-- The subnet `10.0.0.0/24`, as `net.ParseCIDR` returns it. -/
def net10 : IPNet := { IP := [10, 0, 0, 0], Mask := [255, 255, 255, 0] }

/-- A block list whose blocked table holds exactly `name` and whose whitelist
holds exactly the names of `white`; nothing persisted yet. -/
def sampleBlockList (nullroute : IP) (name : String) (white : GoMap Bool) : BlockList :=
  { nullroute := nullroute, null6route := [], m := GoMap.empty.store name true, w := white,
    file := none, openFails := false, writes := 0 }

/-- A query with the single question `name`, `qtype`, class INET. -/
def query (name : String) (qtype : Nat) : Msg :=
  { Id := 7, RecursionDesired := true, Question := [⟨name, qtype, ClassINET⟩] }

/-! ## Sequences of block-list operations -/

/-- A mutating call on the block list. -/
inductive Op where
  | set (key : String)
  | remove (key : String)
deriving DecidableEq

/-- The state after one call; the returned boolean is dropped. -/
def BlockList.step (ord : List String → List String) (b : BlockList) : Op → BlockList
  | Op.set key => (b.Set ord key).1
  | Op.remove key => (b.Remove ord key).1

/-- The state after a sequence of calls, made one after the other. -/
def BlockList.run (ord : List String → List String) (b : BlockList) (ops : List Op) : BlockList :=
  ops.foldl (BlockList.step ord) b

/-- The text of a file made of the header line followed by one line per name. -/
def fileText (names : List String) : String :=
  fileHeader ++ "\n" ++ String.join (names.map (fun d => d ++ "\n"))

/-- The persisted file is in step with the blocked table: it is the header line
followed by the keys of the table, each on its own line and each once, in some
order. -/
def BlockList.InStep (b : BlockList) : Prop :=
  ∃ names : List String, names.Perm b.m.keys ∧ names.Nodup ∧ b.file = some (fileText names)

/-! ## Observations of the refresher -/

/-- The addresses of a reply of the guest agent, in the order in which the two
loops of `goUpdateQemu` visit them. -/
def observations (ifaces : agentInterfaces) : List agentAddress :=
  (ifaces.Result.map (fun iface => iface.IPAddresses)).flatten

/-- The observed addresses that can be written: those of type `ipv4`, parsed,
that lie inside the subnet, in the order of observation. -/
def eligible (parseIP : String → IP) (n : IPNet) (obs : List agentAddress) : List IP :=
  ((obs.filter (fun a => a.IPAddressType == "ipv4")).map
    (fun a => parseIP a.IPAddress)).filter (fun ip => n.Contains ip)

/-- The dotted-decimal text of four bytes, for sample data: `sampleParseIP`
reads back the addresses `10.0.0.5`, `10.0.0.7`, `10.0.0.9` and `192.168.1.4`
as `net.ParseIP` does, and gives nil for every other text. -/
def sampleParseIP (s : String) : IP :=
  if s = "10.0.0.5" then ipv4 10 0 0 5
  else if s = "10.0.0.7" then ipv4 10 0 0 7
  else if s = "10.0.0.9" then ipv4 10 0 0 9
  else if s = "192.168.1.4" then ipv4 192 168 1 4
  else []

/-- A cache over the subnet `10.0.0.0/24` whose table holds exactly `name`. -/
def sampleCache (name : String) (ip : IP) (crashed : Bool) : cache :=
  { c := GoMap.empty.store name ip, net := net10, crashed := crashed }

/-- A cache over the subnet `10.0.0.0/24` with an empty table. -/
def emptyCache : cache :=
  { c := GoMap.empty, net := net10, crashed := false }

/-- A reply of the guest agent with one interface `eth0` reporting the given
IPv4 address texts, in order. -/
def sampleReply (addrs : List String) : agentInterfaces :=
  { Result := [{ Name := "eth0", IPAddresses := addrs.map (fun a => ⟨"ipv4", a⟩) }] }

/-! ## Lemmas on maps -/

namespace GoMap

variable {V : Type}

theorem lookup_store_self (m : GoMap V) (k : String) (v : V) :
    (m.store k v).lookup k = some v := by
  simp [lookup, store]

theorem find_filter_ne (l : List (String × V)) (k k' : String) (h : k' ≠ k) :
    (l.filter (fun e => !(e.1 == k))).find? (fun e => e.1 == k') =
      l.find? (fun e => e.1 == k') := by
  induction l with
  | nil => rfl
  | cons e es ih =>
    have hkk : ¬ k = k' := fun e' => h e'.symm
    by_cases he : e.1 = k
    · simp [List.filter_cons, List.find?_cons, he, hkk, ih]
    · by_cases he2 : e.1 = k'
      · simp [List.filter_cons, List.find?_cons, he2, h]
      · simp [List.filter_cons, List.find?_cons, he, he2, ih]

theorem lookup_store_ne (m : GoMap V) (k k' : String) (v : V) (h : k' ≠ k) :
    (m.store k v).lookup k' = m.lookup k' := by
  have hk : (k == k') = false := by simpa using fun e => h e.symm
  simp only [lookup, store, delete, List.find?_cons, hk]
  rw [find_filter_ne _ _ _ h]

theorem index_store_self (m : GoMap V) (zero : V) (k : String) (v : V) :
    (m.store k v).index zero k = v := by
  simp [index, lookup_store_self]

theorem keys_nodup (m : GoMap V) : m.keys.Nodup := m.nodup

end GoMap

/-! ## Lemmas on the block list -/

theorem SetReply_Answer (msg request : Msg) : (msg.SetReply request).Answer = msg.Answer := by
  cases h : request.Question <;> by_cases h2 : request.Opcode = OpcodeQuery <;>
    simp [Msg.SetReply, h, h2]

theorem save_m (ord : List String → List String) (b : BlockList) : (b.save ord).m = b.m := by
  unfold BlockList.save
  split <;> rfl

theorem save_openFails (ord : List String → List String) (b : BlockList) :
    (b.save ord).openFails = b.openFails := by
  unfold BlockList.save
  split <;> rfl

theorem save_inStep (ord : List String → List String) (hord : ∀ l, (ord l).Perm l)
    (b : BlockList) (hopen : b.openFails = false) : (b.save ord).InStep := by
  refine ⟨ord b.m.keys, ?_, ?_, ?_⟩
  · rw [save_m]; exact hord _
  · exact (List.Perm.nodup_iff (hord _)).mpr b.m.keys_nodup
  · simp [BlockList.save, hopen, fileText]

theorem step_openFails (ord : List String → List String) (b : BlockList) (op : Op) :
    (b.step ord op).openFails = b.openFails := by
  cases op with
  | set key =>
    simp only [BlockList.step, BlockList.Set]
    split
    · rfl
    · simp [save_openFails]
  | remove key =>
    simp only [BlockList.step, BlockList.Remove]
    split
    · rfl
    · simp [save_openFails]

theorem step_inStep (ord : List String → List String) (hord : ∀ l, (ord l).Perm l)
    (b : BlockList) (hopen : b.openFails = false) (h : b.InStep) (op : Op) :
    (b.step ord op).InStep := by
  cases op with
  | set key =>
    simp only [BlockList.step, BlockList.Set]
    split
    · exact h
    · exact save_inStep ord hord _ hopen
  | remove key =>
    simp only [BlockList.step, BlockList.Remove]
    split
    · exact h
    · exact save_inStep ord hord _ hopen

theorem run_inStep (ord : List String → List String) (hord : ∀ l, (ord l).Perm l)
    (ops : List Op) (b : BlockList) (hopen : b.openFails = false) (h : b.InStep) :
    (b.run ord ops).InStep := by
  induction ops generalizing b with
  | nil => exact h
  | cons op ops ih =>
    exact ih (b.step ord op) ((step_openFails ord b op).trans hopen)
      (step_inStep ord hord b hopen h op)

theorem keys_store (m : GoMap Bool) (k : String) (v : Bool) (k' : String)
    (h : k' ∈ (m.store k v).keys) : k' = k ∨ k' ∈ m.keys := by
  simp only [GoMap.keys, GoMap.store, GoMap.delete, List.map_cons, List.mem_cons] at h
  rcases h with h | h
  · exact Or.inl h
  · right
    obtain ⟨e, he, rfl⟩ := List.mem_map.mp h
    exact List.mem_map.mpr ⟨e, (List.mem_filter.mp he).1, rfl⟩

theorem keys_delete (m : GoMap Bool) (k : String) (k' : String)
    (h : k' ∈ (m.delete k).keys) : k' ∈ m.keys := by
  obtain ⟨e, he, rfl⟩ := List.mem_map.mp h
  exact List.mem_map.mpr ⟨e, (List.mem_filter.mp he).1, rfl⟩

theorem step_keys_canonical (ord : List String → List String) (b : BlockList) (op : Op)
    (h : ∀ k ∈ b.m.keys, ∃ n, k = CanonicalName n) :
    ∀ k ∈ (b.step ord op).m.keys, ∃ n, k = CanonicalName n := by
  cases op with
  | set key =>
    simp only [BlockList.step, BlockList.Set]
    split
    · exact h
    · intro k hk
      rw [save_m] at hk
      rcases keys_store _ _ _ _ hk with rfl | hk
      · exact ⟨key, rfl⟩
      · exact h k hk
  | remove key =>
    simp only [BlockList.step, BlockList.Remove]
    split
    · exact h
    · intro k hk
      rw [save_m] at hk
      exact h k (keys_delete _ _ _ hk)

theorem run_keys_canonical (ord : List String → List String) (ops : List Op) (b : BlockList)
    (h : ∀ k ∈ b.m.keys, ∃ n, k = CanonicalName n) :
    ∀ k ∈ (b.run ord ops).m.keys, ∃ n, k = CanonicalName n := by
  induction ops generalizing b with
  | nil => exact h
  | cons op ops ih => exact ih (b.step ord op) (step_keys_canonical ord b op h)

/-! ## Block list: claims -/

/-- C1: when the name of the single question is blocked and the question has
type A, `BlockList.ServeDNS` writes one reply and then cancels the chain, without
calling `Next`; the answer section of the reply is one A record with the name of
the question, class INET, TTL 3600 and the null-route IPv4 address. -/
theorem C1_serve_blocked_A (b : BlockList) (req : Msg) (q : Question)
    (hq : req.Question = [q]) (hA : q.Qtype = TypeA) (hex : b.Exists q.Name = true) :
    ∃ msg : Msg, b.ServeDNS req = some [ChainEvent.writeMsg msg, ChainEvent.cancel] ∧
      msg.Answer =
        [RR.A { Name := q.Name, Rrtype := TypeA, Class := ClassINET, Ttl := 3600 } b.nullroute] := by
  simp only [BlockList.ServeDNS, hq, hex, hA]
  exact ⟨_, rfl, by simp [SetReply_Answer]⟩

/-- C1 at the query `A example.com.` against a store that holds `example.com.`
with null route `0.0.0.0`. -/
theorem C1_serve_blocked_A_witness :
    (sampleBlockList (ipv4 0 0 0 0) "example.com." GoMap.empty).Exists "example.com." = true ∧
    ∃ msg : Msg,
      (sampleBlockList (ipv4 0 0 0 0) "example.com." GoMap.empty).ServeDNS
          (query "example.com." TypeA) =
        some [ChainEvent.writeMsg msg, ChainEvent.cancel] ∧
      msg.Answer =
        [RR.A { Name := "example.com.", Rrtype := TypeA, Class := ClassINET, Ttl := 3600 }
          (ipv4 0 0 0 0)] :=
  ⟨by decide,
   C1_serve_blocked_A (sampleBlockList (ipv4 0 0 0 0) "example.com." GoMap.empty)
     (query "example.com." TypeA) ⟨"example.com.", TypeA, ClassINET⟩ rfl rfl (by decide)⟩

/-- C2: when `x` and `y` have the same canonical form and the whitelist does not
hold that form with the value true, `Set x` returns true and `Exists y` is true
in the state it leaves. -/
theorem C2_set_then_exists (ord : List String → List String) (b : BlockList) (x y : String)
    (hxy : CanonicalName x = CanonicalName y)
    (hw : b.w.index false (CanonicalName x) = false) :
    (b.Set ord x).2 = true ∧ (b.Set ord x).1.Exists y = true := by
  simp [BlockList.Set, hw, BlockList.Exists, save_m, ← hxy, GoMap.lookup_store_self]

/-- C2 at `Set "Example.com"` followed by `Exists "example.com."` on the empty
store. -/
theorem C2_set_then_exists_witness :
    CanonicalName "Example.com" = CanonicalName "example.com." ∧
    ((emptyBlockList [] []).Set id "Example.com").2 = true ∧
    ((emptyBlockList [] []).Set id "Example.com").1.Exists "example.com." = true :=
  ⟨by decide,
   C2_set_then_exists id (emptyBlockList [] []) "Example.com" "example.com." (by decide)
     (by decide)⟩

/-- C3: when every entry of the whitelist table has the value true and the
canonical form of `x` is a key of that table, `Set x` returns false and leaves
the whole state as it was: the blocked table, the file and the count of writes
to it; so `Exists x` is false after the call when it was false before. -/
theorem C3_whitelist_wins (ord : List String → List String) (b : BlockList) (x : String)
    (hinv : ∀ k v, b.w.lookup k = some v → v = true)
    (hpres : (b.w.lookup (CanonicalName x)).isSome = true) :
    b.Set ord x = (b, false) ∧
    (b.Set ord x).1.m = b.m ∧
    (b.Set ord x).1.file = b.file ∧
    (b.Set ord x).1.writes = b.writes ∧
    (b.Exists x = false → (b.Set ord x).1.Exists x = false) := by
  obtain ⟨v, hv⟩ := Option.isSome_iff_exists.mp hpres
  have hidx : b.w.index false (CanonicalName x) = true := by
    simp [GoMap.index, hv, hinv _ _ hv]
  have hset : b.Set ord x = (b, false) := by
    simp [BlockList.Set, hidx]
  rw [hset]
  exact ⟨rfl, rfl, rfl, rfl, fun h => h⟩

/-- C3 at `Set "ads.example.com"` with `ads.example.com.` whitelisted. -/
theorem C3_whitelist_wins_witness :
    (sampleBlockList [] "blocked.test." (GoMap.empty.store "ads.example.com." true)).Set id
        "ads.example.com" =
      (sampleBlockList [] "blocked.test." (GoMap.empty.store "ads.example.com." true), false) ∧
    (sampleBlockList [] "blocked.test." (GoMap.empty.store "ads.example.com." true)).Exists
        "ads.example.com" = false ∧
    ((sampleBlockList [] "blocked.test." (GoMap.empty.store "ads.example.com." true)).Set id
        "ads.example.com").1.Exists "ads.example.com" = false :=
  have h := C3_whitelist_wins id
    (sampleBlockList [] "blocked.test." (GoMap.empty.store "ads.example.com." true))
    "ads.example.com"
    (fun k v hkv => by
      simp only [sampleBlockList, GoMap.lookup, GoMap.store, GoMap.delete, GoMap.empty,
        List.filter_nil, List.find?_cons, List.find?_nil] at hkv
      split at hkv <;> simp at hkv
      exact hkv)
    (by decide)
  ⟨h.1, by decide, h.2.2.2.2 (by decide)⟩

/-- C9: when the name of the single question is blocked and the question has a
type other than A and AAAA, `BlockList.ServeDNS` writes one reply and then
cancels the chain, without calling `Next`; the answer section of the reply is
empty and its extra section is one SOA record with the name of the question,
serial 0, refresh 28800, retry 7200, expire 604800 and minttl 86400. -/
theorem C9_serve_blocked_other (b : BlockList) (req : Msg) (q : Question)
    (hq : req.Question = [q]) (hA : q.Qtype ≠ TypeA) (hAAAA : q.Qtype ≠ TypeAAAA)
    (hex : b.Exists q.Name = true) :
    ∃ msg : Msg, b.ServeDNS req = some [ChainEvent.writeMsg msg, ChainEvent.cancel] ∧
      msg.Answer = [] ∧
      msg.Extra =
        [RR.SOA { Name := q.Name, Rrtype := TypeSOA, Class := ClassINET, Ttl := 86400 }
          q.Name "." 0 28800 7200 604800 86400] := by
  simp only [BlockList.ServeDNS, hq, hex, hA, hAAAA]
  exact ⟨_, rfl, by simp [SetReply_Answer], by simp [SetReply_Answer]⟩

/-- C9 at the query `MX blocked.test.` against a store that holds
`blocked.test.`. -/
theorem C9_serve_blocked_other_witness :
    (sampleBlockList (ipv4 0 0 0 0) "blocked.test." GoMap.empty).Exists "blocked.test." = true ∧
    ∃ msg : Msg,
      (sampleBlockList (ipv4 0 0 0 0) "blocked.test." GoMap.empty).ServeDNS
          (query "blocked.test." TypeMX) =
        some [ChainEvent.writeMsg msg, ChainEvent.cancel] ∧
      msg.Answer = [] ∧
      msg.Extra =
        [RR.SOA { Name := "blocked.test.", Rrtype := TypeSOA, Class := ClassINET, Ttl := 86400 }
          "blocked.test." "." 0 28800 7200 604800 86400] :=
  ⟨by decide,
   C9_serve_blocked_other (sampleBlockList (ipv4 0 0 0 0) "blocked.test." GoMap.empty)
     (query "blocked.test." TypeMX) ⟨"blocked.test.", TypeMX, ClassINET⟩ rfl (by decide)
     (by decide) (by decide)⟩

/-- C10: when opening the file succeeds and the keys of a map are visited in
some order of them, after a `Set` that returns true and any further sequence of
`Set` and `Remove` calls the file is the header line followed by the keys of
the blocked table, one per line, each once, in some order; a `Remove` of a name
that is not blocked returns false and leaves the state, file included, as it
was; and the keys are canonical forms when those of the starting table are. -/
theorem C10_file_in_step (ord : List String → List String) (hord : ∀ l, (ord l).Perm l)
    (b : BlockList) (hopen : b.openFails = false) (x : String) (ops : List Op)
    (hset : (b.Set ord x).2 = true) :
    (∃ names : List String,
      names.Perm ((b.Set ord x).1.run ord ops).m.keys ∧ names.Nodup ∧
      ((b.Set ord x).1.run ord ops).file = some (fileText names)) ∧
    (∀ (b' : BlockList) (y : String), b'.Exists y = false → b'.Remove ord y = (b', false)) ∧
    ((∀ k ∈ b.m.keys, ∃ n, k = CanonicalName n) →
      ∀ k ∈ ((b.Set ord x).1.run ord ops).m.keys, ∃ n, k = CanonicalName n) := by
  have hw : b.w.index false (CanonicalName x) = false := by
    by_contra hc
    simp [BlockList.Set, hc] at hset
  have hS : (b.Set ord x).1 =
      BlockList.save ord { b with m := b.m.store (CanonicalName x) true } := by
    simp [BlockList.Set, hw]
  refine ⟨?_, ?_, ?_⟩
  · rw [hS]
    exact run_inStep ord hord ops _ ((save_openFails ord _).trans hopen)
      (save_inStep ord hord _ hopen)
  · intro b' y hy
    simp [BlockList.Remove, hy]
  · intro hcan
    exact run_keys_canonical ord ops _ (step_keys_canonical ord b (Op.set x) hcan)

/-- C10 at `Set "a.test"` then `Remove "b.test"` on the empty store: the file is
the header line and the line `a.test.`. -/
theorem C10_file_in_step_witness :
    ((emptyBlockList [] []).Set id "a.test").2 = true ∧
    (((emptyBlockList [] []).Set id "a.test").1.run id [Op.remove "b.test"]).file =
      some "# The file generated by auto. DO NOT EDIT\na.test.\n" ∧
    ∃ names : List String,
      names.Perm (((emptyBlockList [] []).Set id "a.test").1.run id [Op.remove "b.test"]).m.keys ∧
      names.Nodup ∧
      (((emptyBlockList [] []).Set id "a.test").1.run id [Op.remove "b.test"]).file =
        some (fileText names) :=
  ⟨by decide, by decide,
   (C10_file_in_step id (fun l => List.Perm.refl l) (emptyBlockList [] []) rfl "a.test"
     [Op.remove "b.test"] (by decide)).1⟩

/-! ## Proxmox resolver: lemmas -/

theorem Equal_self (ip : IP) : IP.Equal ip ip = true := by
  simp [IP.Equal]

theorem updateAddr_cases (parseIP : String → IP) (key : String) (c : cache) (a : agentAddress) :
    cache.updateAddr parseIP key c a = c ∨
    (a.IPAddressType = "ipv4" ∧ c.net.Contains (parseIP a.IPAddress) = true ∧
      IP.Equal (c.c.index [] key) (parseIP a.IPAddress) = false ∧
      cache.updateAddr parseIP key c a = { c with c := c.c.store key (parseIP a.IPAddress) }) := by
  unfold cache.updateAddr
  by_cases ht : a.IPAddressType = "ipv4"
  · by_cases hc : c.net.Contains (parseIP a.IPAddress) = true
    · by_cases he : IP.Equal (c.c.index [] key) (parseIP a.IPAddress) = true
      · left; simp [ht, hc, he]
      · right
        have he' : IP.Equal (c.c.index [] key) (parseIP a.IPAddress) = false := by
          simpa using he
        exact ⟨ht, hc, he', by simp [ht, hc, he']⟩
    · left; simp [ht, hc]
  · left; simp [ht]

theorem updateAddr_net (parseIP : String → IP) (key : String) (c : cache) (a : agentAddress) :
    (cache.updateAddr parseIP key c a).net = c.net := by
  rcases updateAddr_cases parseIP key c a with h | ⟨_, _, _, h⟩ <;> rw [h]

theorem fold_net (parseIP : String → IP) (key : String) (obs : List agentAddress) (c : cache) :
    (obs.foldl (cache.updateAddr parseIP key) c).net = c.net := by
  induction obs generalizing c with
  | nil => rfl
  | cons a as ih => rw [List.foldl_cons, ih, updateAddr_net]

theorem goUpdateQemu_eq_fold (parseIP : String → IP) (c : cache) (r : ClusterResource)
    (ifaces : agentInterfaces) :
    c.goUpdateQemu parseIP r (.ok ifaces) =
      (observations ifaces).foldl (cache.updateAddr parseIP (Fqdn r.Name)) c := by
  simp only [cache.goUpdateQemu, observations, List.foldl_flatten, List.foldl_map]

theorem fold_other_keys (parseIP : String → IP) (key : String) (obs : List agentAddress)
    (c : cache) (k : String) (hk : k ≠ key) :
    (obs.foldl (cache.updateAddr parseIP key) c).c.lookup k = c.c.lookup k := by
  induction obs generalizing c with
  | nil => rfl
  | cons a as ih =>
    rw [List.foldl_cons, ih]
    rcases updateAddr_cases parseIP key c a with h | ⟨_, _, _, h⟩ <;> rw [h]
    exact GoMap.lookup_store_ne _ _ _ _ hk

theorem eligible_concat (parseIP : String → IP) (n : IPNet) (obs : List agentAddress)
    (a : agentAddress) :
    eligible parseIP n (obs ++ [a]) =
      eligible parseIP n obs ++
        (if a.IPAddressType = "ipv4" ∧ n.Contains (parseIP a.IPAddress) = true
          then [parseIP a.IPAddress] else []) := by
  by_cases ht : a.IPAddressType = "ipv4" <;>
    by_cases hc : n.Contains (parseIP a.IPAddress) = true <;>
    simp [eligible, List.filter_append, List.filter_cons, ht, hc]

theorem updateAddr_not_eligible (parseIP : String → IP) (key : String) (c : cache)
    (a : agentAddress)
    (h : ¬ (a.IPAddressType = "ipv4" ∧ c.net.Contains (parseIP a.IPAddress) = true)) :
    cache.updateAddr parseIP key c a = c := by
  rcases updateAddr_cases parseIP key c a with h' | ⟨ht, hc, _, _⟩
  · exact h'
  · exact absurd ⟨ht, hc⟩ h

theorem updateAddr_eligible (parseIP : String → IP) (key : String) (c : cache)
    (a : agentAddress) (ht : a.IPAddressType = "ipv4")
    (hc : c.net.Contains (parseIP a.IPAddress) = true) :
    IP.Equal ((cache.updateAddr parseIP key c a).c.index [] key) (parseIP a.IPAddress) = true := by
  by_cases he : IP.Equal (c.c.index [] key) (parseIP a.IPAddress) = true
  · have : cache.updateAddr parseIP key c a = c := by simp [cache.updateAddr, ht, hc, he]
    rw [this]; exact he
  · have he' : IP.Equal (c.c.index [] key) (parseIP a.IPAddress) = false := by simpa using he
    have : cache.updateAddr parseIP key c a =
        { c with c := c.c.store key (parseIP a.IPAddress) } := by
      simp [cache.updateAddr, ht, hc, he']
    rw [this]
    simp [GoMap.index_store_self, Equal_self]

theorem fold_last_equal (parseIP : String → IP) (key : String) (obs : List agentAddress)
    (c : cache) (ip : IP) (hl : (eligible parseIP c.net obs).getLast? = some ip) :
    IP.Equal ((obs.foldl (cache.updateAddr parseIP key) c).c.index [] key) ip = true := by
  induction obs using List.reverseRecOn generalizing ip with
  | nil => simp [eligible] at hl
  | append_singleton obs a ih =>
    rw [List.foldl_append, List.foldl_cons, List.foldl_nil]
    rw [eligible_concat] at hl
    by_cases he : a.IPAddressType = "ipv4" ∧ c.net.Contains (parseIP a.IPAddress) = true
    · rw [if_pos he, List.getLast?_concat] at hl
      cases Option.some.inj hl
      exact updateAddr_eligible parseIP key _ a he.1 (by rw [fold_net]; exact he.2)
    · rw [if_neg he, List.append_nil] at hl
      rw [updateAddr_not_eligible parseIP key _ a (by rw [fold_net]; exact he)]
      exact ih ip hl

theorem fold_no_eligible (parseIP : String → IP) (key : String) (obs : List agentAddress)
    (c : cache) (hel : eligible parseIP c.net obs = []) :
    obs.foldl (cache.updateAddr parseIP key) c = c := by
  induction obs using List.reverseRecOn with
  | nil => rfl
  | append_singleton obs a ih =>
    rw [eligible_concat] at hel
    have h1 := (List.append_eq_nil.mp hel).1
    have h2 := (List.append_eq_nil.mp hel).2
    have hne : ¬ (a.IPAddressType = "ipv4" ∧ c.net.Contains (parseIP a.IPAddress) = true) := by
      intro h
      rw [if_pos h] at h2
      exact List.cons_ne_nil _ _ h2
    rw [List.foldl_append, List.foldl_cons, List.foldl_nil, ih h1]
    exact updateAddr_not_eligible parseIP key c a hne

theorem fold_written_inside (parseIP : String → IP) (key : String) (obs : List agentAddress)
    (c : cache) :
    (obs.foldl (cache.updateAddr parseIP key) c).c.lookup key = c.c.lookup key ∨
    ∃ ip, (obs.foldl (cache.updateAddr parseIP key) c).c.lookup key = some ip ∧
      c.net.Contains ip = true := by
  induction obs using List.reverseRecOn with
  | nil => exact Or.inl rfl
  | append_singleton obs a ih =>
    rw [List.foldl_append, List.foldl_cons, List.foldl_nil]
    rcases updateAddr_cases parseIP key (obs.foldl (cache.updateAddr parseIP key) c) a with
      h | ⟨_, hc, _, h⟩
    · rw [h]; exact ih
    · rw [h]
      right
      rw [fold_net] at hc
      exact ⟨parseIP a.IPAddress, GoMap.lookup_store_self _ _ _, hc⟩

theorem Equal_same_size (e a : IP) (ha : a.length = 16)
    (he : e.length = 0 ∨ e.length = 16) (h : IP.Equal e a = true) : e = a := by
  unfold IP.Equal at h
  rcases he with he | he
  · simp [he, ha, IPv4len, IPv6len] at h
  · simpa [he, ha] using h

theorem lookup_of_index (m : GoMap IP) (k : String) (ip : IP) (h : m.index [] k = ip)
    (hne : ip ≠ []) : m.lookup k = some ip := by
  unfold GoMap.index at h
  cases hl : m.lookup k with
  | none => rw [hl] at h; exact absurd h.symm hne
  | some v => rw [hl] at h; exact congrArg some h

theorem fold_last_exact (parseIP : String → IP) (key : String) (obs : List agentAddress)
    (c : cache)
    (h0 : (c.c.index [] key).length = 0 ∨ (c.c.index [] key).length = 16)
    (hel : ∀ a ∈ eligible parseIP c.net obs, a.length = 16) :
    (((obs.foldl (cache.updateAddr parseIP key) c).c.index [] key).length = 0 ∨
      ((obs.foldl (cache.updateAddr parseIP key) c).c.index [] key).length = 16) ∧
    ∀ ip, (eligible parseIP c.net obs).getLast? = some ip →
      (obs.foldl (cache.updateAddr parseIP key) c).c.lookup key = some ip := by
  induction obs using List.reverseRecOn with
  | nil => exact ⟨h0, fun ip h => by simp [eligible] at h⟩
  | append_singleton obs a ih =>
    rw [eligible_concat] at hel
    have ih' := ih (fun x hx => hel x (List.mem_append_left _ hx))
    rw [List.foldl_append, List.foldl_cons, List.foldl_nil, eligible_concat]
    by_cases he : a.IPAddressType = "ipv4" ∧ c.net.Contains (parseIP a.IPAddress) = true
    · rw [if_pos he] at hel ⊢
      have hlen : (parseIP a.IPAddress).length = 16 :=
        hel _ (List.mem_append_right _ (List.mem_singleton.mpr rfl))
      have hne : parseIP a.IPAddress ≠ [] := by
        intro h; rw [h] at hlen; simp at hlen
      have hidx : (cache.updateAddr parseIP key (obs.foldl (cache.updateAddr parseIP key) c)
          a).c.index [] key = parseIP a.IPAddress := by
        rcases updateAddr_cases parseIP key (obs.foldl (cache.updateAddr parseIP key) c) a with
          h | ⟨_, _, _, h⟩
        · have hE := updateAddr_eligible parseIP key (obs.foldl (cache.updateAddr parseIP key) c)
            a he.1 (by rw [fold_net]; exact he.2)
          rw [h] at hE ⊢
          exact Equal_same_size _ _ hlen ih'.1 hE
        · rw [h]; exact GoMap.index_store_self _ _ _ _
      refine ⟨Or.inr (by rw [hidx]; exact hlen), fun ip hl => ?_⟩
      rw [List.getLast?_concat] at hl
      cases Option.some.inj hl
      exact lookup_of_index _ _ _ hidx hne
    · rw [if_neg he, List.append_nil]
      rw [updateAddr_not_eligible parseIP key _ a (by rw [fold_net]; exact he)]
      exact ih'

/-! ## Proxmox resolver: claims -/

/-- C4: for a query whose single question has type A, when `cache.get` of the
question name reports found with address `ip`, `PVEResolver.ServeDNS` writes one
reply and then cancels the chain, without calling `Next`; the reply is not
authoritative and its answer section is one A record with the name of the
question, class INET, TTL 60 and address `ip`. When `get` reports not found,
`ServeDNS` calls `Next` once and writes nothing. -/
theorem C4_pve_serve_A (m : PVEResolver) (req : Msg) (q : Question)
    (hq : req.Question = [q]) (hA : q.Qtype = TypeA) :
    (∀ ip : IP, (m.c.get q.Name).1 = (ip, true) →
      ∃ res : Msg, m.ServeDNS req = some [ChainEvent.writeMsg res, ChainEvent.cancel] ∧
        res.Authoritative = false ∧
        res.Answer =
          [RR.A { Name := q.Name, Rrtype := TypeA, Class := ClassINET, Ttl := 60 } ip]) ∧
    (∀ ip : IP, (m.c.get q.Name).1 = (ip, false) →
      m.ServeDNS req = some [ChainEvent.next]) := by
  constructor
  · intro ip hget
    simp only [PVEResolver.ServeDNS, hq, hA, hget]
    exact ⟨_, rfl, rfl, rfl⟩
  · intro ip hget
    simp [PVEResolver.ServeDNS, hq, hA, hget]

/-- C4 at the table `vm1.local. -> 10.0.0.5`: the query `A vm1.local.` is
answered, the query `A vm9.local.` is handed to the next handler. -/
theorem C4_pve_serve_A_witness :
    (∃ res : Msg,
      PVEResolver.ServeDNS ⟨sampleCache "vm1.local." (ipv4 10 0 0 5) false⟩
          (query "vm1.local." TypeA) =
        some [ChainEvent.writeMsg res, ChainEvent.cancel] ∧
      res.Authoritative = false ∧
      res.Answer =
        [RR.A { Name := "vm1.local.", Rrtype := TypeA, Class := ClassINET, Ttl := 60 }
          (ipv4 10 0 0 5)]) ∧
    PVEResolver.ServeDNS ⟨sampleCache "vm1.local." (ipv4 10 0 0 5) false⟩
        (query "vm9.local." TypeA) = some [ChainEvent.next] :=
  ⟨(C4_pve_serve_A ⟨sampleCache "vm1.local." (ipv4 10 0 0 5) false⟩
      (query "vm1.local." TypeA) ⟨"vm1.local.", TypeA, ClassINET⟩ rfl rfl).1
      (ipv4 10 0 0 5) (by decide),
   (C4_pve_serve_A ⟨sampleCache "vm1.local." (ipv4 10 0 0 5) false⟩
      (query "vm9.local." TypeA) ⟨"vm9.local.", TypeA, ClassINET⟩ rfl rfl).2
      [] (by decide)⟩

/-- C5: when the crash flag is true, `cache.get` returns the nil address and
not-found for every name, whatever the table holds, and leaves the cache, its
table included, as it was. -/
theorem C5_crash_gate (c : cache) (name : String) (hcrash : c.crashed = true) :
    (c.get name).1 = ([], false) ∧ (c.get name).2 = c ∧ (c.get name).2.c = c.c := by
  simp [cache.get, hcrash]

/-- C5 at the table `vm1.local. -> 10.0.0.5` with the crash flag set:
`get "vm1.local."` is not found although the table holds the name. -/
theorem C5_crash_gate_witness :
    (sampleCache "vm1.local." (ipv4 10 0 0 5) true).c.lookup "vm1.local." =
      some (ipv4 10 0 0 5) ∧
    ((sampleCache "vm1.local." (ipv4 10 0 0 5) true).get "vm1.local.").1 = ([], false) ∧
    ((sampleCache "vm1.local." (ipv4 10 0 0 5) true).get "vm1.local.").2 =
      sampleCache "vm1.local." (ipv4 10 0 0 5) true ∧
    ((sampleCache "vm1.local." (ipv4 10 0 0 5) true).get "vm1.local.").2.c =
      (sampleCache "vm1.local." (ipv4 10 0 0 5) true).c :=
  ⟨by decide, C5_crash_gate (sampleCache "vm1.local." (ipv4 10 0 0 5) true) "vm1.local." rfl⟩

/-- C6, as stated, fails for a machine name with upper-case letters: for the
machine `DB1` and the observation `10.0.0.7` inside the subnet, the entry under
the canonical name `db1.` stays absent, and the entry of another name, `DB1.`,
is the one written. -/
theorem C6_canonical_key_counterexample :
    (eligible sampleParseIP emptyCache.net (observations (sampleReply ["10.0.0.7"]))).getLast? =
      some (ipv4 10 0 0 7) ∧
    CanonicalName "DB1" = "db1." ∧
    (emptyCache.goUpdateQemu sampleParseIP ⟨"DB1", "pve", 100⟩
      (.ok (sampleReply ["10.0.0.7"]))).c.lookup (CanonicalName "DB1") = none ∧
    "DB1." ≠ CanonicalName "DB1" ∧
    emptyCache.c.lookup "DB1." = none ∧
    (emptyCache.goUpdateQemu sampleParseIP ⟨"DB1", "pve", 100⟩
      (.ok (sampleReply ["10.0.0.7"]))).c.lookup "DB1." = some (ipv4 10 0 0 7) := by
  decide

/-- C6, amended: the key is the fully qualified machine name `Fqdn r.Name`, with
its case kept. `goUpdateQemu` is the fold of `updateAddr` over the observed
addresses in order. After it, the entry under that key is equal (`net.IP.Equal`)
to the last observed address of type `ipv4` inside the subnet, and is that very
address when the entry before was absent or sixteen bytes long and the
addresses inside the subnet are sixteen bytes long; the cache is unchanged when
there is no such address; the entries of all other keys are unchanged; and after
any number of observations the entry under the key is the one before or an
address inside the subnet. -/
theorem C6_refresher_update (parseIP : String → IP) (c : cache) (r : ClusterResource)
    (ifaces : agentInterfaces) :
    c.goUpdateQemu parseIP r (.ok ifaces) =
      (observations ifaces).foldl (cache.updateAddr parseIP (Fqdn r.Name)) c ∧
    (∀ ip : IP, (eligible parseIP c.net (observations ifaces)).getLast? = some ip →
      IP.Equal ((c.goUpdateQemu parseIP r (.ok ifaces)).c.index [] (Fqdn r.Name)) ip = true ∧
      (((c.c.index [] (Fqdn r.Name)).length = 0 ∨ (c.c.index [] (Fqdn r.Name)).length = 16) →
        (∀ a ∈ eligible parseIP c.net (observations ifaces), a.length = 16) →
        (c.goUpdateQemu parseIP r (.ok ifaces)).c.lookup (Fqdn r.Name) = some ip)) ∧
    (eligible parseIP c.net (observations ifaces) = [] →
      c.goUpdateQemu parseIP r (.ok ifaces) = c) ∧
    (∀ k : String, k ≠ Fqdn r.Name →
      (c.goUpdateQemu parseIP r (.ok ifaces)).c.lookup k = c.c.lookup k) ∧
    (∀ n : Nat,
      (((observations ifaces).take n).foldl
          (cache.updateAddr parseIP (Fqdn r.Name)) c).c.lookup (Fqdn r.Name) =
        c.c.lookup (Fqdn r.Name) ∨
      ∃ ip : IP,
        (((observations ifaces).take n).foldl
          (cache.updateAddr parseIP (Fqdn r.Name)) c).c.lookup (Fqdn r.Name) = some ip ∧
        c.net.Contains ip = true) := by
  have hfold := goUpdateQemu_eq_fold parseIP c r ifaces
  refine ⟨hfold, ?_, ?_, ?_, ?_⟩
  · intro ip hl
    rw [hfold]
    exact ⟨fold_last_equal parseIP _ _ c ip hl,
      fun h0 hel => (fold_last_exact parseIP _ _ c h0 hel).2 ip hl⟩
  · intro hel
    rw [hfold]
    exact fold_no_eligible parseIP _ _ c hel
  · intro k hk
    rw [hfold]
    exact fold_other_keys parseIP _ _ c k hk
  · intro n
    exact fold_written_inside parseIP _ _ c

/-- C6, amended, at the machine `vm2` in the subnet `10.0.0.0/24`: after the
observations `10.0.0.7` then `10.0.0.9` the entry of `vm2.` is `10.0.0.9`, and
the observation `192.168.1.4` outside the subnet changes nothing. -/
theorem C6_refresher_update_witness :
    (eligible sampleParseIP emptyCache.net
      (observations (sampleReply ["10.0.0.7", "192.168.1.4", "10.0.0.9"]))).getLast? =
      some (ipv4 10 0 0 9) ∧
    (emptyCache.goUpdateQemu sampleParseIP ⟨"vm2", "pve", 100⟩
      (.ok (sampleReply ["10.0.0.7", "192.168.1.4", "10.0.0.9"]))).c.lookup (Fqdn "vm2") =
      some (ipv4 10 0 0 9) ∧
    Fqdn "vm2" = "vm2." ∧
    (eligible sampleParseIP emptyCache.net (observations (sampleReply ["192.168.1.4"])) = [] ∧
      emptyCache.goUpdateQemu sampleParseIP ⟨"vm2", "pve", 100⟩
        (.ok (sampleReply ["192.168.1.4"])) = emptyCache) :=
  ⟨by decide,
   ((C6_refresher_update sampleParseIP emptyCache ⟨"vm2", "pve", 100⟩
      (sampleReply ["10.0.0.7", "192.168.1.4", "10.0.0.9"])).2.1 (ipv4 10 0 0 9)
      (by decide)).2 (by decide) (by decide),
   by decide,
   by decide,
   (C6_refresher_update sampleParseIP emptyCache ⟨"vm2", "pve", 100⟩
      (sampleReply ["192.168.1.4"])).2.2.1 (by decide)⟩

/-- C7, as stated, fails: `get` does not lower-case. With the table
`vm1.local. -> 10.0.0.5` and the crash flag false, `get "VM1.Local"` is not
found although `VM1.Local` and `vm1.local.` have the same canonical form and
`get "vm1.local."` is found; and the address of the machine `VM2` is stored
under `VM2.`, not under `vm2.`. -/
theorem C7_canonical_key_counterexample :
    CanonicalName "VM1.Local" = CanonicalName "vm1.local." ∧
    ((sampleCache "vm1.local." (ipv4 10 0 0 5) false).get "vm1.local.").1 =
      (ipv4 10 0 0 5, true) ∧
    ((sampleCache "vm1.local." (ipv4 10 0 0 5) false).get "VM1.Local").1 = ([], false) ∧
    CanonicalName "VM2" = "vm2." ∧
    (emptyCache.goUpdateQemu sampleParseIP ⟨"VM2", "pve", 100⟩
      (.ok (sampleReply ["10.0.0.7"]))).c.lookup "vm2." = none ∧
    (emptyCache.goUpdateQemu sampleParseIP ⟨"VM2", "pve", 100⟩
      (.ok (sampleReply ["10.0.0.7"]))).c.lookup "VM2." = some (ipv4 10 0 0 7) := by
  decide

/-- C7, amended: the key of the cache is the fully qualified name (`dns.Fqdn`:
a trailing dot appended when missing, case kept) for reads and writes. When the
crash flag is false `get name` returns the entry stored under `Fqdn name`; two
names with the same fully qualified form get the same result; the refresher
changes no entry other than the one under `Fqdn r.Name`, and an address of type
`ipv4` inside the subnet that differs from the cached one is stored under
`Fqdn r.Name`. -/
theorem C7_fqdn_key (parseIP : String → IP) (c : cache) (name name' : String)
    (r : ClusterResource) (reply : Except String agentInterfaces) (ifname : String)
    (a : agentAddress) :
    (c.crashed = false →
      c.get name = ((c.c.index [] (Fqdn name), (c.c.lookup (Fqdn name)).isSome), c)) ∧
    (Fqdn name = Fqdn name' → c.get name = c.get name') ∧
    (∀ k : String, k ≠ Fqdn r.Name →
      (c.goUpdateQemu parseIP r reply).c.lookup k = c.c.lookup k) ∧
    (a.IPAddressType = "ipv4" → c.net.Contains (parseIP a.IPAddress) = true →
      IP.Equal (c.c.index [] (Fqdn r.Name)) (parseIP a.IPAddress) = false →
      (c.goUpdateQemu parseIP r (.ok ⟨[⟨ifname, [a]⟩]⟩)).c.lookup (Fqdn r.Name) =
        some (parseIP a.IPAddress)) := by
  refine ⟨?_, ?_, ?_, ?_⟩
  · intro h
    simp [cache.get, h]
  · intro h
    simp [cache.get, h]
  · intro k hk
    cases reply with
    | error e => rfl
    | ok ifaces =>
      rw [goUpdateQemu_eq_fold]
      exact fold_other_keys parseIP _ _ c k hk
  · intro ht hc he
    simp [cache.goUpdateQemu, cache.updateAddr, ht, hc, he, GoMap.lookup_store_self]

/-- C7, amended, at the table `vm1.local. -> 10.0.0.5`: `get "vm1.local"` is
found with `10.0.0.5`, and the machine `VM2` is stored under `VM2.`. -/
theorem C7_fqdn_key_witness :
    (sampleCache "vm1.local." (ipv4 10 0 0 5) false).get "vm1.local" =
      ((ipv4 10 0 0 5, true), sampleCache "vm1.local." (ipv4 10 0 0 5) false) ∧
    (sampleCache "vm1.local." (ipv4 10 0 0 5) false).get "vm1.local" =
      (sampleCache "vm1.local." (ipv4 10 0 0 5) false).get "vm1.local." ∧
    ((sampleCache "vm1.local." (ipv4 10 0 0 5) false).goUpdateQemu sampleParseIP
      ⟨"VM2", "pve", 100⟩ (.ok (sampleReply ["10.0.0.7"]))).c.lookup "vm1.local." =
      some (ipv4 10 0 0 5) ∧
    ((sampleCache "vm1.local." (ipv4 10 0 0 5) false).goUpdateQemu sampleParseIP
      ⟨"VM2", "pve", 100⟩ (.ok ⟨[⟨"eth0", [⟨"ipv4", "10.0.0.7"⟩]⟩]⟩)).c.lookup "VM2." =
      some (ipv4 10 0 0 7) :=
  have h := C7_fqdn_key sampleParseIP (sampleCache "vm1.local." (ipv4 10 0 0 5) false)
    "vm1.local" "vm1.local." ⟨"VM2", "pve", 100⟩ (.ok (sampleReply ["10.0.0.7"])) "eth0"
    ⟨"ipv4", "10.0.0.7"⟩
  ⟨h.1 rfl, h.2.1 (by decide), h.2.2.1 "vm1.local." (by decide),
   h.2.2.2 rfl (by decide) (by decide)⟩

/-- C8, as stated, fails for the block list: the query `TXT blocked.test.`
against a store that holds `blocked.test.` is not handed to the next handler;
a reply is written and the chain is cancelled. -/
theorem C8_blocked_txt_counterexample :
    TypeTXT ≠ TypeA ∧ TypeTXT ≠ TypeAAAA ∧
    (sampleBlockList (ipv4 0 0 0 0) "blocked.test." GoMap.empty).ServeDNS
        (query "blocked.test." TypeTXT) ≠ some [ChainEvent.next] ∧
    ∃ msg : Msg,
      (sampleBlockList (ipv4 0 0 0 0) "blocked.test." GoMap.empty).ServeDNS
          (query "blocked.test." TypeTXT) =
        some [ChainEvent.writeMsg msg, ChainEvent.cancel] :=
  ⟨by decide, by decide, by decide, _, rfl⟩

/-- C8, amended: for a query whose single question has a type other than A and
AAAA, `PVEResolver.ServeDNS` calls `Next` once and writes nothing, whatever the
cache holds; `BlockList.ServeDNS` calls `Next` once and writes nothing exactly
when the question name is not blocked, and when the name is blocked it writes
one reply and cancels the chain. -/
theorem C8_unrelated_types (b : BlockList) (m : PVEResolver) (req : Msg) (q : Question)
    (hq : req.Question = [q]) (hA : q.Qtype ≠ TypeA) (hAAAA : q.Qtype ≠ TypeAAAA) :
    m.ServeDNS req = some [ChainEvent.next] ∧
    (b.ServeDNS req = some [ChainEvent.next] ↔ b.Exists q.Name = false) ∧
    (b.Exists q.Name = true →
      ∃ msg : Msg, b.ServeDNS req = some [ChainEvent.writeMsg msg, ChainEvent.cancel]) := by
  refine ⟨?_, ?_, ?_⟩
  · simp [PVEResolver.ServeDNS, hq, hA]
  · cases hex : b.Exists q.Name <;> simp [BlockList.ServeDNS, hq, hex]
  · intro hex
    simp only [BlockList.ServeDNS, hq, hex, hA, hAAAA]
    exact ⟨_, rfl⟩

/-- C8, amended, at the query `TXT other.test.` against a store that holds
`blocked.test.` and a cache that holds `other.test.`: both handlers call
`Next`. -/
theorem C8_unrelated_types_witness :
    PVEResolver.ServeDNS ⟨sampleCache "other.test." (ipv4 10 0 0 5) false⟩
        (query "other.test." TypeTXT) = some [ChainEvent.next] ∧
    (sampleBlockList (ipv4 0 0 0 0) "blocked.test." GoMap.empty).ServeDNS
        (query "other.test." TypeTXT) = some [ChainEvent.next] :=
  have h := C8_unrelated_types (sampleBlockList (ipv4 0 0 0 0) "blocked.test." GoMap.empty)
    ⟨sampleCache "other.test." (ipv4 10 0 0 5) false⟩ (query "other.test." TypeTXT)
    ⟨"other.test.", TypeTXT, ClassINET⟩ rfl (by decide) (by decide)
  ⟨h.1, h.2.1.mpr (by decide)⟩

end Sdns
